import Mathlib

/-!
Verification development for the MicroSD-Pico filesystem session and
stream-handle layer (`src/src/micro_sd.cpp`, `src/include/micro_sd.hpp`).

Paths and file names are modelled as `List Char` (the byte view of a
`std::string`); machine integers that only count bytes are modelled as `Nat`.
The external FatFs engine is out of scope: each operation takes the engine's
reported statuses (an `FRESULT` per engine call, byte counts for reads and
writes) as explicit oracle arguments, and the operation bodies are translated
from the C++ source.
-/

namespace MicroSD

/-- FatFs native status codes (`FRESULT` in `ff.h`), the external engine's
return type, as consumed by `micro_sd.cpp`. -/
inductive FRESULT where
  | FR_OK
  | FR_DISK_ERR
  | FR_INT_ERR
  | FR_NOT_READY
  | FR_NO_FILE
  | FR_NO_PATH
  | FR_INVALID_NAME
  | FR_DENIED
  | FR_EXIST
  | FR_INVALID_OBJECT
  | FR_WRITE_PROTECTED
  | FR_INVALID_DRIVE
  | FR_NOT_ENABLED
  | FR_NO_FILESYSTEM
  | FR_MKFS_ABORTED
  | FR_TIMEOUT
  | FR_LOCKED
  | FR_NOT_ENOUGH_CORE
  | FR_TOO_MANY_OPEN_FILES
  | FR_INVALID_PARAMETER
  deriving DecidableEq, Repr

/-- Numeric value of each `FRESULT`, as `std::to_string(fr)` would print it
(the enumerator order of `ff.h`). -/
def fresultNum : FRESULT → Nat
  | .FR_OK => 0
  | .FR_DISK_ERR => 1
  | .FR_INT_ERR => 2
  | .FR_NOT_READY => 3
  | .FR_NO_FILE => 4
  | .FR_NO_PATH => 5
  | .FR_INVALID_NAME => 6
  | .FR_DENIED => 7
  | .FR_EXIST => 8
  | .FR_INVALID_OBJECT => 9
  | .FR_WRITE_PROTECTED => 10
  | .FR_INVALID_DRIVE => 11
  | .FR_NOT_ENABLED => 12
  | .FR_NO_FILESYSTEM => 13
  | .FR_MKFS_ABORTED => 14
  | .FR_TIMEOUT => 15
  | .FR_LOCKED => 16
  | .FR_NOT_ENOUGH_CORE => 17
  | .FR_TOO_MANY_OPEN_FILES => 18
  | .FR_INVALID_PARAMETER => 19

/-- The library's `ErrorCode` enumeration (`micro_sd.hpp`). -/
inductive ErrorCode where
  | SUCCESS
  | INIT_FAILED
  | MOUNT_FAILED
  | FILE_NOT_FOUND
  | PERMISSION_DENIED
  | DISK_FULL
  | IO_ERROR
  | INVALID_PARAMETER
  | FATFS_ERROR
  | UNKNOWN_ERROR
  deriving DecidableEq, Repr

/-- Translation from engine statuses to the library's error taxonomy
(`fresult_to_error_code` in `micro_sd.cpp`). -/
def fresult_to_error_code : FRESULT → ErrorCode
  | .FR_OK => ErrorCode.SUCCESS
  | .FR_NO_FILE => ErrorCode.FILE_NOT_FOUND
  | .FR_NO_PATH => ErrorCode.FILE_NOT_FOUND
  | .FR_INVALID_NAME => ErrorCode.INVALID_PARAMETER
  | .FR_DENIED => ErrorCode.PERMISSION_DENIED
  | .FR_DISK_ERR => ErrorCode.IO_ERROR
  | .FR_NOT_READY => ErrorCode.INIT_FAILED
  | .FR_WRITE_PROTECTED => ErrorCode.IO_ERROR
  | _ => ErrorCode.UNKNOWN_ERROR

/-- The `Result<void>` carrier: an error code plus a diagnostic message
(`micro_sd.hpp`; the default constructor yields `SUCCESS` with an empty
message). -/
structure ResultV where
  error_code : ErrorCode
  error_message : String
  deriving DecidableEq, Repr

/-- `Result<void>()`: the success value. -/
def ResultV.ok : ResultV := ⟨ErrorCode.SUCCESS, ""⟩

/-- `Result<void>(error, message)`. -/
def ResultV.err (e : ErrorCode) (msg : String) : ResultV := ⟨e, msg⟩

/-- `Result<void>::is_ok()`. -/
def ResultV.is_ok (r : ResultV) : Bool := r.error_code = ErrorCode.SUCCESS

/-- `Result<void>::is_error()`. -/
def ResultV.is_error (r : ResultV) : Bool := !r.is_ok

/-- The payload-carrying `Result<T>`: either a value with code `SUCCESS`,
or an error code plus message with no value (`micro_sd.hpp`). -/
inductive Result (α : Type) where
  | ok (value : α)
  | err (e : ErrorCode) (msg : String)
  deriving DecidableEq, Repr

/-- `Result<T>::error_code()` (the success constructor stores `SUCCESS`). -/
def Result.error_code {α : Type} : Result α → ErrorCode
  | .ok _ => ErrorCode.SUCCESS
  | .err e _ => e

/-- `Result<T>::is_ok()`. -/
def Result.is_ok {α : Type} (r : Result α) : Bool := r.error_code = ErrorCode.SUCCESS

/-- `Result<T>::is_error()`. -/
def Result.is_error {α : Type} (r : Result α) : Bool := !r.is_ok

/-! ### Path normalizer -/

/-- The `while ((pos = normalized.find("//", pos)) != npos)` loop of
`SDCard::normalize_path`: every occurrence of two adjacent slashes is
replaced by one slash, rescanning from the replacement position, so each
maximal run of slashes collapses to a single slash. -/
def collapseSlashes : List Char → List Char
  | [] => []
  | [c] => [c]
  | c1 :: c2 :: rest =>
    if c1 = '/' ∧ c2 = '/' then collapseSlashes (c2 :: rest)
    else c1 :: collapseSlashes (c2 :: rest)

/-- Whether the list still contains two adjacent slashes (the loop guard of
the collapse loop in `SDCard::normalize_path`). -/
def hasDoubleSlash : List Char → Bool
  | [] => false
  | [_] => false
  | c1 :: c2 :: rest =>
    if c1 = '/' ∧ c2 = '/' then true else hasDoubleSlash (c2 :: rest)

/-- A path ends in two consecutive slashes: its last character and the last
character before it are both `/`. -/
def ends_double_slash (l : List Char) : Prop :=
  l.getLast? = some '/' ∧ l.dropLast.getLast? = some '/'

instance : DecidablePred ends_double_slash := fun l => by
  unfold ends_double_slash; infer_instance

/-- First step of `SDCard::normalize_path`: prepend a slash when the first
character is not one (`if (normalized[0] != '/')`). -/
def ensureLeading (p : List Char) : List Char :=
  if p.head? ≠ some '/' then '/' :: p else p

/-- Second step of `SDCard::normalize_path`: remove one trailing slash
unless the string has length one
(`if (normalized.length() > 1 && normalized.back() == '/')`). -/
def trimTrailing (p : List Char) : List Char :=
  if p.length > 1 ∧ p.getLast? = some '/' then p.dropLast else p

/-- `SDCard::normalize_path`: empty or `"."` becomes `"/"`; a leading slash
is inserted if absent; one trailing slash is removed (unless the string is
just `"/"`); then runs of slashes are collapsed.  The steps are applied in
exactly the order of the C++ source. -/
def normalize_path (path : List Char) : List Char :=
  if path = [] ∨ path = ['.'] then ['/']
  else collapseSlashes (trimTrailing (ensureLeading path))

/-- `SDCard::join_path`: empty sides delegate to `normalize_path`; otherwise
concatenate with a separator inserted when `dir` does not already end in one,
then normalize. -/
def join_path (dir file : List Char) : List Char :=
  if dir = [] then normalize_path file
  else if file = [] then normalize_path dir
  else
    normalize_path (dir ++ (if dir.getLast? ≠ some '/' then ['/'] else []) ++ file)

/-! ### Whole-file write (`SDCard::write_file`) -/

/-- Oracle for the engine calls issued by one `SDCard::write_file` run: the
statuses of `f_open`, of the append-mode `f_lseek`, and of `f_write`, plus the
byte count `f_write` stores through its `bytes_written` out-parameter. -/
structure WriteEngine where
  open_result : FRESULT
  seek_result : FRESULT
  write_result : FRESULT
  bytes_written : Nat
  deriving DecidableEq, Repr

/-- `SDCard::write_file(path, data, append)` with the engine's responses
supplied by `eng` and `data_size = data.size()`.  The control flow is the
C++ source's: unmounted check, `f_open` (mode depends on `append`), the
append-mode `f_lseek` to end of file, `f_write`, then the short-write check
`bytes_written != data.size()` escalated to `IO_ERROR`. -/
def write_file (is_mounted : Bool) (eng : WriteEngine) (data_size : Nat)
    (append : Bool) : ResultV :=
  if is_mounted = false then ResultV.err ErrorCode.MOUNT_FAILED "SD card not mounted"
  else if eng.open_result ≠ FRESULT.FR_OK then
    ResultV.err (fresult_to_error_code eng.open_result) "open file failed"
  else if append = true ∧ eng.seek_result ≠ FRESULT.FR_OK then
    ResultV.err (fresult_to_error_code eng.seek_result) "file seek failed"
  else if eng.write_result ≠ FRESULT.FR_OK then
    ResultV.err (fresult_to_error_code eng.write_result) "write file failed"
  else if eng.bytes_written ≠ data_size then
    ResultV.err ErrorCode.IO_ERROR "incomplete write"
  else ResultV.ok

/-! ### Mount retry loop and session bring-up -/

/-- Hardware/engine operations recorded while bringing a session up or down:
SPI bring-up (`initialize_spi`), one `f_mount` call, one
`pico_fatfs_reboot_spi` transport reset, and SPI teardown
(`deinitialize_spi`). -/
inductive HwOp where
  | spi_up
  | mount_call
  | spi_reboot
  | spi_down
  deriving DecidableEq, Repr

/-- Diagnostic message of a failed `SDCard::mount_filesystem`, embedding the
last native engine status exactly as the C++ builds it from
`std::to_string(fr)`. -/
def mount_fail_msg (fr : FRESULT) : String :=
  "SD mount failed, FRESULT: " ++ Nat.repr (fresultNum fr)

/-- The `for (int i = 0; i < 5; i++)` retry loop of
`SDCard::mount_filesystem`; `att i` is the status of the i-th `f_mount`
call and `fuel` the remaining iterations.  Each failed attempt is followed
by a transport reset; when the loop exhausts, the error carries the last
attempted status (`att (i - 1)`).  Returns the result, the new mounted flag,
and the trace of engine operations performed. -/
def mount_fs_loop (att : Nat → FRESULT) (i : Nat) :
    Nat → ResultV × Bool × List HwOp
  | 0 =>
    (ResultV.err (fresult_to_error_code (att (i - 1))) (mount_fail_msg (att (i - 1))),
     false, [])
  | fuel + 1 =>
    if att i = FRESULT.FR_OK then (ResultV.ok, true, [HwOp.mount_call])
    else
      let r := mount_fs_loop att (i + 1) fuel
      (r.1, r.2.1, HwOp.mount_call :: HwOp.spi_reboot :: r.2.2)

/-- `SDCard::mount_filesystem`: up to 5 mount attempts. -/
def mount_filesystem (att : Nat → FRESULT) : ResultV × Bool × List HwOp :=
  mount_fs_loop att 0 5

/-- `SDCard::initialize`: returns success immediately when already mounted;
otherwise brings up SPI, runs the mount retry loop, and on failure tears the
SPI transport back down before returning the mount error.  Returns the
result, the session's mounted flag afterwards, and the hardware/engine
operation trace. -/
def session_init (is_mounted : Bool) (att : Nat → FRESULT) :
    ResultV × Bool × List HwOp :=
  if is_mounted then (ResultV.err ErrorCode.SUCCESS "", true, [])
  else
    let m := mount_filesystem att
    if m.1.is_error then
      (m.1, false, HwOp.spi_up :: (m.2.2 ++ [HwOp.spi_down]))
    else
      (m.1, m.2.1, HwOp.spi_up :: m.2.2)

/-! ### Directory listing (`SDCard::list_directory`) -/

/-- One raw directory entry as the engine's `f_readdir` yields it
(`FILINFO` in `ff.h`): the name, the size, and the attribute bit set, of
which bit `0x10` is `AM_DIR`. -/
structure FILINFO where
  fname : List Char
  fsize : Nat
  fattrib : Nat
  deriving DecidableEq, Repr

/-- The `AM_DIR` attribute bit. -/
def AM_DIR : Nat := 16

/-- The library's `FileInfo` record built for one listed entry. -/
structure FileInfo where
  name : List Char
  full_path : List Char
  size : Nat
  is_directory : Bool
  attributes : Nat
  deriving DecidableEq, Repr

/-- Construction of one `FileInfo` from a raw entry inside
`SDCard::list_directory`. -/
def mk_file_info (target_path : List Char) (fno : FILINFO) : FileInfo :=
  { name := fno.fname
    full_path := join_path target_path fno.fname
    size := fno.fsize
    is_directory := decide (Nat.land fno.fattrib AM_DIR ≠ 0)
    attributes := fno.fattrib }

/-- The enumeration loop of `SDCard::list_directory`: the loop stops at the
first entry with an empty name (the engine's end-of-directory marker), skips
an entry exactly when its name is `"."` or `".."` (the C++ test
`fname[0]=='.' && (fname[1]==0 || (fname[1]=='.' && fname[2]==0))`), and
collects a `FileInfo` for every other entry. -/
def collect_entries (target_path : List Char) : List FILINFO → List FileInfo
  | [] => []
  | fno :: rest =>
    if fno.fname = [] then []
    else if fno.fname = ['.'] ∨ fno.fname = ['.', '.'] then
      collect_entries target_path rest
    else
      mk_file_info target_path fno :: collect_entries target_path rest

/-- Lexicographic strict comparison of names by character code, the
`std::string` `operator<` used by the sort comparator. -/
def str_lt : List Char → List Char → Bool
  | [], [] => false
  | [], _ :: _ => true
  | _ :: _, [] => false
  | a :: as, b :: bs =>
    if a.toNat < b.toNat then true
    else if b.toNat < a.toNat then false
    else str_lt as bs

/-- The total preorder the sorted listing satisfies: `a` may precede `b`
when the comparator of `SDCard::list_directory` does not order `b` strictly
before `a` — directories strictly before files, lexicographic names within
a group. -/
def entry_le (a b : FileInfo) : Bool :=
  if a.is_directory = b.is_directory then !(str_lt b.name a.name)
  else a.is_directory

/-- `entry_le` as a relation, for the sorting lemmas. -/
def entry_ord (a b : FileInfo) : Prop := entry_le a b = true

instance : DecidableRel entry_ord := fun a b => by
  unfold entry_ord; infer_instance

/-- The `std::sort(files.begin(), files.end(), cmp)` call of
`SDCard::list_directory`, modelled as a comparison sort with the same
comparator (any comparison sort yields a permutation ordered by the
comparator, which is all `std::sort` guarantees for a non-stable sort). -/
def sort_files (files : List FileInfo) : List FileInfo :=
  List.insertionSort entry_ord files

/-- `SDCard::list_directory(path)`: unmounted check, target selection
(current directory when `path` is empty), `f_opendir` (status supplied by
`open_result`), entry collection, and the final sort.  `entries` is the
sequence the engine's `f_readdir` yields. -/
def list_directory (is_mounted : Bool) (current_path : List Char)
    (path : List Char) (open_result : FRESULT) (entries : List FILINFO) :
    Result (List FileInfo) :=
  if is_mounted = false then
    Result.err ErrorCode.MOUNT_FAILED "SD card not mounted"
  else
    let target := if path = [] then current_path else normalize_path path
    if open_result ≠ FRESULT.FR_OK then
      Result.err (fresult_to_error_code open_result) "open directory failed"
    else
      Result.ok (sort_files (collect_entries target entries))

/-- Projection of a listing result to the sequence of entry names, for
stating concrete listing examples. -/
def listing_names : Result (List FileInfo) → Option (List (List Char))
  | Result.ok files => some (files.map FileInfo.name)
  | Result.err _ _ => none

/-! ### Stream handle (`SDCard::FileHandle`) -/

/-- Engine calls a `FileHandle` can issue: `f_open`, `f_close`, `f_read`,
`f_write`, `f_lseek`, `f_sync`. -/
inductive EngCall where
  | eng_open
  | eng_close
  | eng_read
  | eng_write
  | eng_lseek
  | eng_sync
  deriving DecidableEq, Repr

/-- The state of one `SDCard::FileHandle`: the open flag and stored path of
the C++ object; `content` is the byte stream of the underlying engine file
object from the current position onward (what successive `f_read` calls
yield); `owned` counts the open engine file objects this handle currently
owns (i.e. its outstanding obligation to call `f_close`), which the C++
keeps implicitly in its single `FIL file_` member. -/
structure FileHandle where
  is_open : Bool
  path : List Char
  content : List Char
  owned : Nat
  deriving DecidableEq, Repr

/-- `FileHandle::close`: an engine-level `f_close` happens only when the
handle is open; afterwards the flag is cleared and the path emptied.
Returns the new state and the engine calls made.  The destructor
`~FileHandle() { close(); }` is this same function. -/
def FileHandle.close (h : FileHandle) : FileHandle × List EngCall :=
  if h.is_open then
    ({ h with is_open := false, path := [], owned := h.owned - 1 },
     [EngCall.eng_close])
  else (h, [])

/-- FatFs access-mode flag `FA_READ`. -/
def FA_READ : Nat := 1
/-- FatFs access-mode flag `FA_WRITE`. -/
def FA_WRITE : Nat := 2
/-- FatFs access-mode flag `FA_CREATE_ALWAYS`. -/
def FA_CREATE_ALWAYS : Nat := 8
/-- FatFs access-mode flag `FA_OPEN_ALWAYS`. -/
def FA_OPEN_ALWAYS : Nat := 16

/-- The mode-token dispatch of `FileHandle::open`: the six recognized tokens
map to FatFs flag sets; anything else is rejected (`none`). -/
def mode_to_flags : List Char → Option Nat
  | ['r'] => some FA_READ
  | ['w'] => some (Nat.lor FA_WRITE FA_CREATE_ALWAYS)
  | ['a'] => some (Nat.lor FA_WRITE FA_OPEN_ALWAYS)
  | ['r', '+'] => some (Nat.lor FA_READ FA_WRITE)
  | ['w', '+'] => some (Nat.lor (Nat.lor FA_READ FA_WRITE) FA_CREATE_ALWAYS)
  | ['a', '+'] => some (Nat.lor (Nat.lor FA_READ FA_WRITE) FA_OPEN_ALWAYS)
  | _ => none

/-- `FileHandle::open(path, mode)`: an already-open handle is closed first;
then the mode token is validated (`INVALID_PARAMETER` on an unknown token);
then `f_open` runs (status `open_fr`); for `"a"`/`"a+"` a seek to end of
file follows (status `seek_fr`) whose failure closes the just-opened engine
object.  `new_content` is the byte stream the successfully opened engine
file exposes from the resulting position.  Returns the result, the new
handle state, and the engine call trace. -/
def FileHandle.open_file (h : FileHandle) (path mode : List Char)
    (open_fr seek_fr : FRESULT) (new_content : List Char) :
    ResultV × FileHandle × List EngCall :=
  let c := if h.is_open then h.close else (h, [])
  let h1 := c.1
  let t1 := c.2
  match mode_to_flags mode with
  | none =>
    (ResultV.err ErrorCode.INVALID_PARAMETER "invalid file open mode", h1, t1)
  | some _ =>
    if open_fr ≠ FRESULT.FR_OK then
      (ResultV.err (fresult_to_error_code open_fr) "open file failed",
       h1, t1 ++ [EngCall.eng_open])
    else if (mode = ['a'] ∨ mode = ['a', '+']) ∧ seek_fr ≠ FRESULT.FR_OK then
      (ResultV.err (fresult_to_error_code seek_fr) "file seek failed",
       { h1 with owned := h1.owned + 1 - 1 },
       t1 ++ [EngCall.eng_open, EngCall.eng_lseek, EngCall.eng_close])
    else
      (ResultV.ok,
       { h1 with is_open := true, path := normalize_path path,
                 content := new_content, owned := h1.owned + 1 },
       t1 ++ [EngCall.eng_open] ++
         (if mode = ['a'] ∨ mode = ['a', '+'] then [EngCall.eng_lseek] else []))

/-- `FileHandle::read(size)`: `PERMISSION_DENIED` without any engine call on
a closed handle; otherwise one `f_read` (status `fr`) that on success yields
up to `size` bytes and advances the position. -/
def FileHandle.read (h : FileHandle) (size : Nat) (fr : FRESULT) :
    Result (List Char) × FileHandle × List EngCall :=
  if h.is_open = false then
    (Result.err ErrorCode.PERMISSION_DENIED "file not open", h, [])
  else if fr ≠ FRESULT.FR_OK then
    (Result.err (fresult_to_error_code fr) "read file failed", h,
     [EngCall.eng_read])
  else
    (Result.ok (h.content.take size), { h with content := h.content.drop size },
     [EngCall.eng_read])

/-- The byte loop of `FileHandle::read_line`: one `f_read` of a single byte
per iteration (`frs k` is the status of the k-th such call), stopping on an
engine error, on end of file (`bytes_read == 0`), or after consuming a
line-feed; carriage returns are dropped, every other byte is appended to the
accumulator.  Returns the result, the remaining content, and the number of
`f_read` calls made. -/
def read_line_go (frs : Nat → FRESULT) (k : Nat) (acc : List Char) :
    (rest : List Char) → Result (List Char) × List Char × Nat
  | [] =>
    if frs k ≠ FRESULT.FR_OK then
      (Result.err (fresult_to_error_code (frs k)) "read file failed", [], 1)
    else (Result.ok acc, [], 1)
  | ch :: rest2 =>
    if frs k ≠ FRESULT.FR_OK then
      (Result.err (fresult_to_error_code (frs k)) "read file failed",
       ch :: rest2, 1)
    else if ch = '\n' then (Result.ok acc, rest2, 1)
    else if ch = '\r' then
      let r := read_line_go frs (k + 1) acc rest2
      (r.1, r.2.1, r.2.2 + 1)
    else
      let r := read_line_go frs (k + 1) (acc ++ [ch]) rest2
      (r.1, r.2.1, r.2.2 + 1)

/-- `FileHandle::read_line()`: `PERMISSION_DENIED` without engine calls on a
closed handle; otherwise the byte loop above, starting with an empty line
accumulator.  The engine-call trace is one `f_read` per loop iteration. -/
def FileHandle.read_line (h : FileHandle) (frs : Nat → FRESULT) :
    Result (List Char) × FileHandle × List EngCall :=
  if h.is_open = false then
    (Result.err ErrorCode.PERMISSION_DENIED "file not open", h, [])
  else
    let r := read_line_go frs 0 [] h.content
    (r.1, { h with content := r.2.1 }, List.replicate r.2.2 EngCall.eng_read)

/-- `FileHandle::write(data)`: `PERMISSION_DENIED` without engine calls on a
closed handle; otherwise one `f_write` (status `fr`, reported byte count
`bytes_written`) whose success returns the engine's byte count unchecked. -/
def FileHandle.write (h : FileHandle) (data_size : Nat) (fr : FRESULT)
    (bytes_written : Nat) : Result Nat × FileHandle × List EngCall :=
  if h.is_open = false then
    (Result.err ErrorCode.PERMISSION_DENIED "file not open", h, [])
  else if fr ≠ FRESULT.FR_OK then
    (Result.err (fresult_to_error_code fr) "write file failed", h,
     [EngCall.eng_write])
  else (Result.ok bytes_written, h, [EngCall.eng_write])

/-- `FileHandle::seek(position)`: `PERMISSION_DENIED` without engine calls
on a closed handle; otherwise one `f_lseek` (status `fr`); `new_content` is
the byte stream visible from the new position on success. -/
def FileHandle.seek (h : FileHandle) (fr : FRESULT) (new_content : List Char) :
    ResultV × FileHandle × List EngCall :=
  if h.is_open = false then
    (ResultV.err ErrorCode.PERMISSION_DENIED "file not open", h, [])
  else if fr ≠ FRESULT.FR_OK then
    (ResultV.err (fresult_to_error_code fr) "file seek failed", h,
     [EngCall.eng_lseek])
  else (ResultV.ok, { h with content := new_content }, [EngCall.eng_lseek])

/-- `FileHandle::tell()`: `PERMISSION_DENIED` on a closed handle; otherwise
the engine file's current position `pos` (`f_tell` reads a field of the
`FIL`, issuing no bus operation). -/
def FileHandle.tell (h : FileHandle) (pos : Nat) :
    Result Nat × List EngCall :=
  if h.is_open = false then
    (Result.err ErrorCode.PERMISSION_DENIED "file not open", [])
  else (Result.ok pos, [])

/-- `FileHandle::size()`: `PERMISSION_DENIED` on a closed handle; otherwise
the engine file's size `fsize` (`f_size` reads a field of the `FIL`). -/
def FileHandle.size (h : FileHandle) (fsize : Nat) :
    Result Nat × List EngCall :=
  if h.is_open = false then
    (Result.err ErrorCode.PERMISSION_DENIED "file not open", [])
  else (Result.ok fsize, [])

/-- `FileHandle::flush()`: `PERMISSION_DENIED` without engine calls on a
closed handle; otherwise one `f_sync` (status `fr`). -/
def FileHandle.flush (h : FileHandle) (fr : FRESULT) :
    ResultV × FileHandle × List EngCall :=
  if h.is_open = false then
    (ResultV.err ErrorCode.PERMISSION_DENIED "file not open", h, [])
  else if fr ≠ FRESULT.FR_OK then
    (ResultV.err (fresult_to_error_code fr) "sync file failed", h,
     [EngCall.eng_sync])
  else (ResultV.ok, h, [EngCall.eng_sync])

/-! ### Formatting (`SDCard::format`) -/

/-- FatFs filesystem-kind code `FS_FAT12`. -/
def FS_FAT12 : Nat := 1
/-- FatFs filesystem-kind code `FS_FAT16`. -/
def FS_FAT16 : Nat := 2
/-- FatFs filesystem-kind code `FS_FAT32`. -/
def FS_FAT32 : Nat := 3
/-- FatFs filesystem-kind code `FS_EXFAT`. -/
def FS_EXFAT : Nat := 4

/-- The `MKFS_PARM` option block handed to the engine's `f_mkfs`. -/
structure MKFS_PARM where
  fmt : Nat
  n_fat : Nat
  align : Nat
  n_root : Nat
  au_size : Nat
  deriving DecidableEq, Repr

/-- `SDCard::format(fs_type)`: unmounted check; the kind string selects the
`fmt` code (`"FAT32"`, `"FAT16"`, `"exFAT"`, with `FS_FAT32` as the default
for anything else); the fixed configuration `n_fat = 1`, `align = 0`,
`n_root = 512`, `au_size = 0`; then `f_mkfs` (status `mkfs_fr`), whose
failure becomes `FATFS_ERROR`.  Returns the result and the option block
passed to the engine (`none` when `f_mkfs` was never reached). -/
def format (is_mounted : Bool) (fs_type : List Char) (mkfs_fr : FRESULT) :
    ResultV × Option MKFS_PARM :=
  if is_mounted = false then
    (ResultV.err ErrorCode.MOUNT_FAILED "SD card not mounted", none)
  else
    let fmt :=
      if fs_type = ['F', 'A', 'T', '3', '2'] then FS_FAT32
      else if fs_type = ['F', 'A', 'T', '1', '6'] then FS_FAT16
      else if fs_type = ['e', 'x', 'F', 'A', 'T'] then FS_EXFAT
      else FS_FAT32
    let opt : MKFS_PARM := ⟨fmt, 1, 0, 512, 0⟩
    if mkfs_fr ≠ FRESULT.FR_OK then
      (ResultV.err ErrorCode.FATFS_ERROR
        ("format failed: " ++ Nat.repr (fresultNum mkfs_fr)), some opt)
    else (ResultV.ok, some opt)

/-! ## Helper lemmas on slash collapsing -/

theorem getLast?_cons_of_ne_nil {α : Type} (a : α) (l : List α) (h : l ≠ []) :
    (a :: l).getLast? = l.getLast? := by
  cases l with
  | nil => exact absurd rfl h
  | cons b t => exact List.getLast?_cons_cons

theorem collapseSlashes_head? (l : List Char) :
    (collapseSlashes l).head? = l.head? := by
  induction l using collapseSlashes.induct with
  | case1 => rfl
  | case2 c => rfl
  | case3 c1 c2 rest hg ih =>
    simp only [collapseSlashes]
    rw [if_pos hg, ih]
    simp [hg.1, hg.2]
  | case4 c1 c2 rest hg ih =>
    simp only [collapseSlashes, if_neg hg, List.head?_cons]

theorem collapseSlashes_ne_nil (l : List Char) (h : l ≠ []) :
    collapseSlashes l ≠ [] := by
  intro hc
  have hh := collapseSlashes_head? l
  rw [hc] at hh
  cases l with
  | nil => exact h rfl
  | cons a t => simp at hh

theorem collapseSlashes_getLast? (l : List Char) :
    (collapseSlashes l).getLast? = l.getLast? := by
  induction l using collapseSlashes.induct with
  | case1 => rfl
  | case2 c => rfl
  | case3 c1 c2 rest hg ih =>
    simp only [collapseSlashes]
    rw [if_pos hg, ih, List.getLast?_cons_cons]
  | case4 c1 c2 rest hg ih =>
    simp only [collapseSlashes, if_neg hg]
    rw [getLast?_cons_of_ne_nil _ _ (collapseSlashes_ne_nil _ (by simp)), ih,
      List.getLast?_cons_cons]

theorem hasDoubleSlash_collapseSlashes (l : List Char) :
    hasDoubleSlash (collapseSlashes l) = false := by
  induction l using collapseSlashes.induct with
  | case1 => rfl
  | case2 c => rfl
  | case3 c1 c2 rest hg ih =>
    simp only [collapseSlashes]
    rw [if_pos hg]
    exact ih
  | case4 c1 c2 rest hg ih =>
    simp only [collapseSlashes, if_neg hg]
    have hh := collapseSlashes_head? (c2 :: rest)
    cases hx : collapseSlashes (c2 :: rest) with
    | nil => exact absurd hx (collapseSlashes_ne_nil _ (by simp))
    | cons x xs =>
      rw [hx] at hh
      simp only [List.head?_cons] at hh
      have hx2 : x = c2 := by injection hh
      subst hx2
      rw [hx] at ih
      simpa only [hasDoubleSlash, if_neg hg] using ih

theorem collapseSlashes_of_not_double (l : List Char)
    (h : hasDoubleSlash l = false) : collapseSlashes l = l := by
  induction l using collapseSlashes.induct with
  | case1 => rfl
  | case2 c => rfl
  | case3 c1 c2 rest hg ih =>
    simp only [hasDoubleSlash] at h
    rw [if_pos hg] at h
    simp at h
  | case4 c1 c2 rest hg ih =>
    simp only [hasDoubleSlash, if_neg hg] at h
    simp only [collapseSlashes, if_neg hg, ih h]

/-! ## Helper lemmas on the normalizer steps -/

theorem ensureLeading_head? (p : List Char) :
    (ensureLeading p).head? = some '/' := by
  unfold ensureLeading
  split
  · simp
  · next hp =>
    rw [not_not] at hp
    exact hp

theorem trimTrailing_head? (p : List Char) :
    (trimTrailing p).head? = p.head? := by
  unfold trimTrailing
  split
  · next hp =>
    obtain ⟨hl, _⟩ := hp
    match p, hl with
    | a :: b :: t, _ => rw [List.dropLast_cons₂]; rfl
  · rfl

theorem ends_double_slash_ensureLeading (p : List Char)
    (h : ¬ ends_double_slash p) : ¬ ends_double_slash (ensureLeading p) := by
  unfold ensureLeading
  split
  · next hp =>
    intro hd
    obtain ⟨hd1, hd2⟩ := hd
    match p with
    | [] => simp [ends_double_slash] at hd2
    | [x] =>
      simp only [List.getLast?_cons_cons] at hd1
      simp only [List.getLast?_singleton, Option.some.injEq] at hd1
      exact hp (by simp [hd1])
    | x :: y :: t =>
      apply h
      constructor
      · rwa [List.getLast?_cons_cons] at hd1
      · rw [List.dropLast_cons₂] at hd2
        rwa [getLast?_cons_of_ne_nil _ _ (by simp [List.dropLast_cons₂])] at hd2
  · exact h

theorem trimTrailing_no_trailing (l : List Char) (hh : l.head? = some '/')
    (h : ¬ ends_double_slash l) :
    trimTrailing l = ['/'] ∨ (trimTrailing l).getLast? ≠ some '/' := by
  unfold trimTrailing
  split
  · next hp =>
    obtain ⟨hl, hlast⟩ := hp
    right
    intro hd
    exact h ⟨hlast, hd⟩
  · next hp =>
    rw [not_and_or] at hp
    rcases hp with hp | hp
    · left
      cases l with
      | nil => simp at hh
      | cons a t =>
        cases t with
        | nil =>
          simp only [List.head?_cons, Option.some.injEq] at hh
          subst hh
          rfl
        | cons b t2 => simp at hp
    · exact Or.inr hp

theorem normalize_path_head? (p : List Char) :
    (normalize_path p).head? = some '/' := by
  unfold normalize_path
  split
  · rfl
  · rw [collapseSlashes_head?, trimTrailing_head?, ensureLeading_head?]

theorem hasDoubleSlash_normalize_path (p : List Char) :
    hasDoubleSlash (normalize_path p) = false := by
  unfold normalize_path
  split
  · rfl
  · exact hasDoubleSlash_collapseSlashes _

theorem normalize_path_no_trailing (p : List Char) (h : ¬ ends_double_slash p) :
    normalize_path p = ['/'] ∨ (normalize_path p).getLast? ≠ some '/' := by
  unfold normalize_path
  split
  · exact Or.inl rfl
  · have h1 := ends_double_slash_ensureLeading p h
    have h2 := trimTrailing_no_trailing (ensureLeading p) (ensureLeading_head? p) h1
    rcases h2 with h2 | h2
    · left; rw [h2]; rfl
    · right; rwa [collapseSlashes_getLast?]

theorem normalize_path_fixed (q : List Char) (h1 : q.head? = some '/')
    (h2 : hasDoubleSlash q = false)
    (h3 : q = ['/'] ∨ q.getLast? ≠ some '/') : normalize_path q = q := by
  unfold normalize_path
  rw [if_neg]
  · have he : ensureLeading q = q := by
      unfold ensureLeading
      rw [if_neg]
      simp [h1]
    have ht : trimTrailing q = q := by
      unfold trimTrailing
      rw [if_neg]
      rcases h3 with h3 | h3
      · subst h3; simp
      · intro hc; exact h3 hc.2
    rw [he, ht]
    exact collapseSlashes_of_not_double q h2
  · rintro (rfl | rfl) <;> simp at h1

/-! ## Helper lemmas on the error translation -/

theorem fresult_to_error_code_ne_disk_full (fr : FRESULT) :
    fresult_to_error_code fr ≠ ErrorCode.DISK_FULL := by
  cases fr <;> decide

theorem fresult_to_error_code_ne_mount_failed (fr : FRESULT) :
    fresult_to_error_code fr ≠ ErrorCode.MOUNT_FAILED := by
  cases fr <;> decide

theorem fresult_to_error_code_eq_success (fr : FRESULT) :
    fresult_to_error_code fr = ErrorCode.SUCCESS ↔ fr = FRESULT.FR_OK := by
  cases fr <;> simp [fresult_to_error_code]

/-! ## Claim C1 -/

/-- C1, counterexample: `normalize_path` is not idempotent on the path
`"a//"` — one pass yields `"/a/"` (the trailing-slash trim runs before the
slash collapse), a second pass yields `"/a"`. -/
theorem C1_counterexample :
    normalize_path (normalize_path ['a', '/', '/']) ≠
      normalize_path ['a', '/', '/'] := by
  decide

/-- C1, amended: `normalize_path` is idempotent on every path that does not
end in two consecutive slashes; for a path ending in `"//"` the first pass
leaves one trailing slash that a second pass removes. -/
theorem C1_normalize_path_idempotent (p : List Char)
    (h : ¬ ends_double_slash p) :
    normalize_path (normalize_path p) = normalize_path p :=
  normalize_path_fixed _ (normalize_path_head? p)
    (hasDoubleSlash_normalize_path p) (normalize_path_no_trailing p h)

/-- Witness for C1: the hypothesis and conclusion at the concrete path
`"a/b/"`. -/
theorem C1_witness :
    ¬ ends_double_slash ['a', '/', 'b', '/'] ∧
      normalize_path (normalize_path ['a', '/', 'b', '/']) =
        normalize_path ['a', '/', 'b', '/'] :=
  ⟨by decide, C1_normalize_path_idempotent _ (by decide)⟩

/-! ## Claim C2 -/

/-- C2, confirmed: when the session is mounted and every engine call of
`write_file` reports success but the engine acknowledges fewer bytes than
requested, `write_file` returns an `IO_ERROR` result — a short write is
never reported as success. -/
theorem C2_write_file_short_write (m : Bool) (eng : WriteEngine) (n : Nat)
    (ap : Bool) (hm : m = true) (ho : eng.open_result = FRESULT.FR_OK)
    (hs : ap = true → eng.seek_result = FRESULT.FR_OK)
    (hw : eng.write_result = FRESULT.FR_OK) (hb : eng.bytes_written < n) :
    write_file m eng n ap = ResultV.err ErrorCode.IO_ERROR "incomplete write" := by
  have hb2 : eng.bytes_written ≠ n := Nat.ne_of_lt hb
  subst hm
  cases ap with
  | false => simp [write_file, ho, hw, hb2]
  | true =>
    have hs2 := hs rfl
    simp [write_file, ho, hw, hs2, hb2]

/-- Witness for C2: a mounted write of 5 bytes that the engine acknowledges
with only 2 bytes written. -/
theorem C2_witness :
    write_file true ⟨FRESULT.FR_OK, FRESULT.FR_OK, FRESULT.FR_OK, 2⟩ 5 false =
      ResultV.err ErrorCode.IO_ERROR "incomplete write" :=
  C2_write_file_short_write true ⟨FRESULT.FR_OK, FRESULT.FR_OK, FRESULT.FR_OK, 2⟩
    5 false rfl rfl (fun _ => rfl) rfl (by decide)

/-! ## Claim C3 -/

/-- C3, counterexample: a write that exceeds the available space — FatFs
acknowledges it with `FR_OK` and a short byte count — is reported as
`IO_ERROR`, not as `DISK_FULL`. -/
theorem C3_counterexample :
    (write_file true ⟨FRESULT.FR_OK, FRESULT.FR_OK, FRESULT.FR_OK, 0⟩ 5
        false).error_code = ErrorCode.IO_ERROR ∧
      (write_file true ⟨FRESULT.FR_OK, FRESULT.FR_OK, FRESULT.FR_OK, 0⟩ 5
        false).error_code ≠ ErrorCode.DISK_FULL := by
  decide

/-- C3, amended: a write exceeding the available space is never silently
truncated — `write_file` succeeds only when the engine wrote every requested
byte — but the resulting error kind is never `DISK_FULL` (no code path of
`write_file` produces it); a full medium surfaces as `IO_ERROR` through the
short-write escalation, or as the translated engine status. -/
theorem C3_write_file_never_disk_full (m : Bool) (eng : WriteEngine) (n : Nat)
    (ap : Bool) :
    (write_file m eng n ap).error_code ≠ ErrorCode.DISK_FULL ∧
      (write_file m eng n ap = ResultV.ok → eng.bytes_written = n) := by
  constructor
  · unfold write_file
    split
    · simp [ResultV.err]
    split
    · simpa [ResultV.err] using fresult_to_error_code_ne_disk_full eng.open_result
    split
    · simpa [ResultV.err] using fresult_to_error_code_ne_disk_full eng.seek_result
    split
    · simpa [ResultV.err] using fresult_to_error_code_ne_disk_full eng.write_result
    split
    · simp [ResultV.err]
    · simp [ResultV.ok]
  · intro hok
    unfold write_file at hok
    split at hok
    · simp [ResultV.err, ResultV.ok] at hok
    split at hok
    · simp [ResultV.err, ResultV.ok] at hok
    split at hok
    · simp [ResultV.err, ResultV.ok] at hok
    split at hok
    · simp [ResultV.err, ResultV.ok] at hok
    split at hok
    · simp [ResultV.err, ResultV.ok] at hok
    · next hb => omega

/-- Witness for C3: the second component at a successful full write (the
engine confirms all 5 bytes), showing the success path forces
`bytes_written = data size`. -/
theorem C3_witness :
    (write_file true ⟨FRESULT.FR_OK, FRESULT.FR_OK, FRESULT.FR_OK, 5⟩ 5
        false).error_code ≠ ErrorCode.DISK_FULL ∧ (5 : Nat) = 5 :=
  ⟨(C3_write_file_never_disk_full true
      ⟨FRESULT.FR_OK, FRESULT.FR_OK, FRESULT.FR_OK, 5⟩ 5 false).1,
   (C3_write_file_never_disk_full true
      ⟨FRESULT.FR_OK, FRESULT.FR_OK, FRESULT.FR_OK, 5⟩ 5 false).2 (by decide)⟩

/-! ## Claim C4 -/

theorem mount_fs_loop_count_le (att : Nat → FRESULT) (i fuel : Nat) :
    ((mount_fs_loop att i fuel).2.2.count HwOp.mount_call) ≤ fuel := by
  induction fuel generalizing i with
  | zero => simp [mount_fs_loop]
  | succ f ih =>
    unfold mount_fs_loop
    split
    · simp
    · have hih := ih (i + 1)
      simp [List.count_cons]
      simp [List.count_cons] at hih
      omega

/-- C4, counterexample: when all five mount attempts fail with
`FR_DISK_ERR`, `initialize` returns the translated status `IO_ERROR`, not
`MOUNT_FAILED`. -/
theorem C4_counterexample :
    (session_init false (fun _ => FRESULT.FR_DISK_ERR)).1.error_code =
        ErrorCode.IO_ERROR ∧
      (session_init false (fun _ => FRESULT.FR_DISK_ERR)).1.error_code ≠
        ErrorCode.MOUNT_FAILED := by
  decide

/-- C4, amended: on an unmounted session, `initialize` attempts the engine
mount at most 5 times with a transport reset after each failed attempt; if
all 5 attempts fail it returns an error whose kind is the *translated last
native status* (`fresult_to_error_code`, which never yields `MOUNT_FAILED`)
and whose message embeds that native status, the SPI bring-up is reversed
(`spi_down` ends the trace), and the session is left unmounted. -/
theorem C4_initialize_mount_retry (att : Nat → FRESULT)
    (h : ∀ i, i < 5 → att i ≠ FRESULT.FR_OK) :
    session_init false att =
      (ResultV.err (fresult_to_error_code (att 4)) (mount_fail_msg (att 4)),
       false,
       [HwOp.spi_up, HwOp.mount_call, HwOp.spi_reboot, HwOp.mount_call,
        HwOp.spi_reboot, HwOp.mount_call, HwOp.spi_reboot, HwOp.mount_call,
        HwOp.spi_reboot, HwOp.mount_call, HwOp.spi_reboot, HwOp.spi_down]) ∧
      fresult_to_error_code (att 4) ≠ ErrorCode.MOUNT_FAILED ∧
      (∀ att2 : Nat → FRESULT,
        ((session_init false att2).2.2.count HwOp.mount_call) ≤ 5) := by
  refine ⟨?_, fresult_to_error_code_ne_mount_failed _, ?_⟩
  · have h0 := h 0 (by omega)
    have h1 := h 1 (by omega)
    have h2 := h 2 (by omega)
    have h3 := h 3 (by omega)
    have h4 := h 4 (by omega)
    have hsu : fresult_to_error_code (att 4) ≠ ErrorCode.SUCCESS := by
      intro hc
      exact h4 ((fresult_to_error_code_eq_success (att 4)).mp hc)
    simp [session_init, mount_filesystem, mount_fs_loop, h0, h1, h2, h3, h4,
      ResultV.is_error, ResultV.is_ok, ResultV.err, hsu]
  · intro att2
    have hle := mount_fs_loop_count_le att2 0 5
    rcases Bool.eq_false_or_eq_true ((mount_fs_loop att2 0 5).1.is_error) with
      hE | hE <;>
      simp [session_init, mount_filesystem, hE, List.count_cons,
        List.count_append] <;>
      omega

/-- Witness for C4: the hypothesis and the failure characterization at the
concrete attempt sequence that always reports `FR_DISK_ERR`. -/
theorem C4_witness :
    (∀ i, i < 5 → (fun _ => FRESULT.FR_DISK_ERR) i ≠ FRESULT.FR_OK) ∧
      session_init false (fun _ => FRESULT.FR_DISK_ERR) =
        (ResultV.err ErrorCode.IO_ERROR (mount_fail_msg FRESULT.FR_DISK_ERR),
         false,
         [HwOp.spi_up, HwOp.mount_call, HwOp.spi_reboot, HwOp.mount_call,
          HwOp.spi_reboot, HwOp.mount_call, HwOp.spi_reboot, HwOp.mount_call,
          HwOp.spi_reboot, HwOp.mount_call, HwOp.spi_reboot, HwOp.spi_down]) :=
  ⟨fun i _ => (by decide : FRESULT.FR_DISK_ERR ≠ FRESULT.FR_OK),
   ((C4_initialize_mount_retry (fun _ => FRESULT.FR_DISK_ERR)
      (fun i _ => (by decide : FRESULT.FR_DISK_ERR ≠ FRESULT.FR_OK))).1).trans
     (by decide)⟩

/-! ## Helper lemmas on the listing comparator -/

theorem str_lt_asymm (x y : List Char) (h : str_lt x y = true) :
    str_lt y x = false := by
  induction x generalizing y with
  | nil =>
    cases y with
    | nil => simp [str_lt] at h
    | cons b bs => simp [str_lt]
  | cons a as ih =>
    cases y with
    | nil => simp [str_lt] at h
    | cons b bs =>
      by_cases hab : a.toNat < b.toNat
      · have hba : ¬ b.toNat < a.toNat := by omega
        simp [str_lt, hab, hba]
      · by_cases hba : b.toNat < a.toNat
        · simp [str_lt, hab, hba] at h
        · simp [str_lt, hab, hba] at h ⊢
          exact ih bs h

theorem str_lt_negtrans (x y z : List Char) (h : str_lt x z = true) :
    str_lt x y = true ∨ str_lt y z = true := by
  induction x generalizing y z with
  | nil =>
    cases z with
    | nil => simp [str_lt] at h
    | cons c cs =>
      cases y with
      | nil => exact Or.inr (by simp [str_lt])
      | cons b bs => exact Or.inl (by simp [str_lt])
  | cons a as ih =>
    cases z with
    | nil => simp [str_lt] at h
    | cons c cs =>
      cases y with
      | nil => exact Or.inr (by simp [str_lt])
      | cons b bs =>
        by_cases hab : a.toNat < b.toNat
        · exact Or.inl (by simp [str_lt, hab])
        · by_cases hbc : b.toNat < c.toNat
          · exact Or.inr (by simp [str_lt, hbc])
          · by_cases hac : a.toNat < c.toNat
            · omega
            · by_cases hca : c.toNat < a.toNat
              · simp [str_lt, hac, hca] at h
              · simp only [str_lt, if_neg hac, if_neg hca] at h
                have hba : ¬ b.toNat < a.toNat := by omega
                have hcb : ¬ c.toNat < b.toNat := by omega
                rcases ih bs cs h with h2 | h2
                · exact Or.inl (by simp [str_lt, hab, hba, h2])
                · exact Or.inr (by simp [str_lt, hbc, hcb, h2])

instance : IsTotal FileInfo entry_ord where
  total a b := by
    unfold entry_ord entry_le
    by_cases hd : a.is_directory = b.is_directory
    · rw [if_pos hd, if_pos hd.symm]
      by_cases hlt : str_lt b.name a.name = true
      · right
        rw [str_lt_asymm _ _ hlt]
        rfl
      · left
        simp only [Bool.not_eq_true] at hlt
        rw [hlt]
        rfl
    · rw [if_neg hd, if_neg (Ne.symm hd)]
      cases ha : a.is_directory with
      | true => exact Or.inl rfl
      | false =>
        cases hb : b.is_directory with
        | true => exact Or.inr rfl
        | false => exact absurd (ha.trans hb.symm) hd

instance : IsTrans FileInfo entry_ord where
  trans a b c hab hbc := by
    unfold entry_ord entry_le at hab hbc ⊢
    by_cases h1 : a.is_directory = b.is_directory
    · by_cases h2 : b.is_directory = c.is_directory
      · rw [if_pos h1] at hab
        rw [if_pos h2] at hbc
        rw [if_pos (h1.trans h2)]
        simp only [Bool.not_eq_true'] at hab hbc ⊢
        by_contra hca
        simp only [Bool.not_eq_false] at hca
        rcases str_lt_negtrans c.name b.name a.name hca with h3 | h3
        · rw [h3] at hbc; cases hbc
        · rw [h3] at hab; cases hab
      · rw [if_neg h2] at hbc
        rw [if_neg (fun hc => h2 (h1.symm.trans hc))]
        rw [h1]
        exact hbc
    · rw [if_neg h1] at hab
      by_cases h2 : b.is_directory = c.is_directory
      · rw [if_neg (fun hc => h1 (hc.trans h2.symm))]
        exact hab
      · rw [if_neg h2] at hbc
        exact absurd (hab.trans hbc.symm) h1

theorem sort_files_perm (l : List FileInfo) : (sort_files l).Perm l :=
  List.perm_insertionSort entry_ord l

theorem sort_files_sorted (l : List FileInfo) :
    List.Sorted entry_ord (sort_files l) :=
  List.sorted_insertionSort entry_ord l

theorem entry_ord_cases (a b : FileInfo) (h : entry_ord a b) :
    (a.is_directory = true ∧ b.is_directory = false) ∨
      (a.is_directory = b.is_directory ∧ str_lt b.name a.name = false) := by
  unfold entry_ord entry_le at h
  by_cases hd : a.is_directory = b.is_directory
  · rw [if_pos hd] at h
    right
    refine ⟨hd, ?_⟩
    simpa using h
  · rw [if_neg hd] at h
    left
    refine ⟨h, ?_⟩
    cases hb : b.is_directory with
    | true => exact absurd (h.trans hb.symm) hd
    | false => rfl

theorem collect_entries_mem (t : List Char) (entries : List FILINFO)
    (hne : ∀ fno ∈ entries, fno.fname ≠ []) (fi : FileInfo) :
    fi ∈ collect_entries t entries ↔
      ∃ fno, fno ∈ entries ∧ fno.fname ≠ ['.'] ∧ fno.fname ≠ ['.', '.'] ∧
        fi = mk_file_info t fno := by
  induction entries with
  | nil => simp [collect_entries]
  | cons e rest ih =>
    have hne_e : e.fname ≠ [] := hne e (by simp)
    have hne_rest : ∀ fno ∈ rest, fno.fname ≠ [] := fun f hf =>
      hne f (by simp [hf])
    unfold collect_entries
    rw [if_neg hne_e]
    by_cases hd : e.fname = ['.'] ∨ e.fname = ['.', '.']
    · rw [if_pos hd, ih hne_rest]
      constructor
      · rintro ⟨f, hf, h1, h2, h3⟩
        exact ⟨f, by simp [hf], h1, h2, h3⟩
      · rintro ⟨f, hf, h1, h2, h3⟩
        rcases List.mem_cons.mp hf with rfl | hf2
        · rcases hd with hd | hd
          · exact absurd hd h1
          · exact absurd hd h2
        · exact ⟨f, hf2, h1, h2, h3⟩
    · rw [if_neg hd]
      push_neg at hd
      rw [List.mem_cons, ih hne_rest]
      constructor
      · rintro (rfl | ⟨f, hf, h1, h2, h3⟩)
        · exact ⟨e, by simp, hd.1, hd.2, rfl⟩
        · exact ⟨f, by simp [hf], h1, h2, h3⟩
      · rintro ⟨f, hf, h1, h2, h3⟩
        rcases List.mem_cons.mp hf with rfl | hf2
        · exact Or.inl h3
        · exact Or.inr ⟨f, hf2, h1, h2, h3⟩

theorem list_directory_ok_eq (cur p : List Char) (entries : List FILINFO)
    (files : List FileInfo)
    (h : list_directory true cur p FRESULT.FR_OK entries = Result.ok files) :
    files = sort_files
      (collect_entries (if p = [] then cur else normalize_path p) entries) := by
  unfold list_directory at h
  simp only [if_neg (by simp : ¬ (true = false))] at h
  rw [if_neg (by simp : ¬ (FRESULT.FR_OK ≠ FRESULT.FR_OK))] at h
  injection h with h
  exact h.symm

/-! ## Claim C5 -/

/-- C5, confirmed: on a mounted session with a successful directory open,
`list_directory` returns a permutation of the collected (non-skipped)
entries, pairwise ordered with every directory before every non-directory
and names lexicographically ascending within each of the two groups. -/
theorem C5_list_directory_sorted (cur p : List Char) (entries : List FILINFO)
    (files : List FileInfo)
    (h : list_directory true cur p FRESULT.FR_OK entries = Result.ok files) :
    files.Perm
        (collect_entries (if p = [] then cur else normalize_path p) entries) ∧
      files.Pairwise (fun a b =>
        (a.is_directory = true ∧ b.is_directory = false) ∨
          (a.is_directory = b.is_directory ∧ str_lt b.name a.name = false)) := by
  rw [list_directory_ok_eq cur p entries files h]
  constructor
  · exact sort_files_perm _
  · exact List.Pairwise.imp (fun hab => entry_ord_cases _ _ hab)
      (sort_files_sorted _)

/-- Witness for C5: files `"b.txt"`, `"a.txt"` and subdirectory `"z"` list
as `["z", "a.txt", "b.txt"]`, and the ordering conclusion holds there. -/
theorem C5_witness :
    listing_names (list_directory true ['/'] [] FRESULT.FR_OK
        [⟨['b', '.', 't', 'x', 't'], 3, 0⟩, ⟨['a', '.', 't', 'x', 't'], 3, 0⟩,
         ⟨['z'], 0, 16⟩]) =
      some [['z'], ['a', '.', 't', 'x', 't'], ['b', '.', 't', 'x', 't']] ∧
    (sort_files (collect_entries ['/']
        [⟨['b', '.', 't', 'x', 't'], 3, 0⟩, ⟨['a', '.', 't', 'x', 't'], 3, 0⟩,
         ⟨['z'], 0, 16⟩])).Pairwise (fun a b =>
        (a.is_directory = true ∧ b.is_directory = false) ∨
          (a.is_directory = b.is_directory ∧ str_lt b.name a.name = false)) :=
  ⟨by decide,
   (C5_list_directory_sorted ['/'] []
      [⟨['b', '.', 't', 'x', 't'], 3, 0⟩, ⟨['a', '.', 't', 'x', 't'], 3, 0⟩,
       ⟨['z'], 0, 16⟩]
      (sort_files (collect_entries ['/']
        [⟨['b', '.', 't', 'x', 't'], 3, 0⟩, ⟨['a', '.', 't', 'x', 't'], 3, 0⟩,
         ⟨['z'], 0, 16⟩]))
      (by decide)).2⟩

/-! ## Claim C6 -/

/-- C6, counterexample: an entry named `".hidden"` is *not* skipped — it
appears in the returned listing, so entries whose name begins with `.` are
not omitted in general. -/
theorem C6_counterexample :
    listing_names (list_directory true ['/'] [] FRESULT.FR_OK
        [⟨['.', 'h', 'i', 'd', 'd', 'e', 'n'], 1, 0⟩]) =
      some [['.', 'h', 'i', 'd', 'd', 'e', 'n']] := by
  decide

/-- C6, amended: `list_directory` omits exactly the two synthetic entries
`"."` and `".."`; every other enumerated entry — including names that begin
with `.` — appears in the result, and no returned entry is named `"."` or
`".."`. -/
theorem C6_list_directory_skips_only_dot_entries (cur p : List Char)
    (entries : List FILINFO) (files : List FileInfo)
    (hne : ∀ fno ∈ entries, fno.fname ≠ [])
    (h : list_directory true cur p FRESULT.FR_OK entries = Result.ok files) :
    (∀ fi, fi ∈ files ↔
      ∃ fno, fno ∈ entries ∧ fno.fname ≠ ['.'] ∧ fno.fname ≠ ['.', '.'] ∧
        fi = mk_file_info (if p = [] then cur else normalize_path p) fno) ∧
      ∀ fi ∈ files, fi.name ≠ ['.'] ∧ fi.name ≠ ['.', '.'] := by
  rw [list_directory_ok_eq cur p entries files h]
  have hmem : ∀ fi : FileInfo,
      fi ∈ sort_files (collect_entries
        (if p = [] then cur else normalize_path p) entries) ↔
      ∃ fno, fno ∈ entries ∧ fno.fname ≠ ['.'] ∧ fno.fname ≠ ['.', '.'] ∧
        fi = mk_file_info (if p = [] then cur else normalize_path p) fno :=
    fun fi => Iff.trans ((sort_files_perm _).mem_iff)
      (collect_entries_mem _ entries hne fi)
  refine ⟨hmem, fun fi hfi => ?_⟩
  rcases (hmem fi).mp hfi with ⟨fno, _, h1, h2, rfl⟩
  exact ⟨h1, h2⟩

/-- Witness for C6: among entries `".hidden"`, `"."`, `".."`, `"data"`, the
listing keeps `".hidden"` (and the synthetic pair is gone). -/
theorem C6_witness :
    (∀ fno ∈ ([⟨['.', 'h', 'i', 'd', 'd', 'e', 'n'], 1, 0⟩, ⟨['.'], 0, 16⟩,
        ⟨['.', '.'], 0, 16⟩, ⟨['d', 'a', 't', 'a'], 2, 0⟩] : List FILINFO),
      fno.fname ≠ []) ∧
    mk_file_info ['/'] ⟨['.', 'h', 'i', 'd', 'd', 'e', 'n'], 1, 0⟩ ∈
      sort_files (collect_entries ['/']
        [⟨['.', 'h', 'i', 'd', 'd', 'e', 'n'], 1, 0⟩, ⟨['.'], 0, 16⟩,
         ⟨['.', '.'], 0, 16⟩, ⟨['d', 'a', 't', 'a'], 2, 0⟩]) :=
  ⟨by decide,
   (((C6_list_directory_skips_only_dot_entries ['/'] []
        [⟨['.', 'h', 'i', 'd', 'd', 'e', 'n'], 1, 0⟩, ⟨['.'], 0, 16⟩,
         ⟨['.', '.'], 0, 16⟩, ⟨['d', 'a', 't', 'a'], 2, 0⟩]
        (sort_files (collect_entries ['/']
          [⟨['.', 'h', 'i', 'd', 'd', 'e', 'n'], 1, 0⟩, ⟨['.'], 0, 16⟩,
           ⟨['.', '.'], 0, 16⟩, ⟨['d', 'a', 't', 'a'], 2, 0⟩]))
        (by decide) (by decide)).1
      (mk_file_info ['/'] ⟨['.', 'h', 'i', 'd', 'd', 'e', 'n'], 1, 0⟩)).mpr
      ⟨⟨['.', 'h', 'i', 'd', 'd', 'e', 'n'], 1, 0⟩, by decide, by decide,
        by decide, rfl⟩)⟩

/-! ## Claim C7 -/

theorem read_line_go_ok (frs : Nat → FRESULT)
    (hfrs : ∀ k, frs k = FRESULT.FR_OK) (k : Nat) (acc rest : List Char) :
    read_line_go frs k acc rest =
      (Result.ok
        (acc ++ (rest.takeWhile (fun c => c ≠ '\n')).filter (fun c => c ≠ '\r')),
       (rest.dropWhile (fun c => c ≠ '\n')).tail,
       (rest.takeWhile (fun c => c ≠ '\n')).length + 1) := by
  induction rest generalizing k acc with
  | nil => simp [read_line_go, hfrs k]
  | cons ch rest2 ih =>
    by_cases hn : ch = '\n'
    · subst hn
      simp [read_line_go, hfrs k]
    · by_cases hr : ch = '\r'
      · subst hr
        simp [read_line_go, hfrs k, ih (k + 1) acc]
      · simp [read_line_go, hfrs k, ih (k + 1) (acc ++ [ch]), hn, hr]

/-- C7, confirmed: on an open handle whose engine byte-reads all succeed,
`read_line` consumes bytes up to and including the first line feed (or to
end of file), returns — as a success — the consumed run with the line feed
excluded and every carriage return dropped, and leaves the position after
the consumed run; in particular at end of file with no pending bytes it
returns a success carrying the empty string. -/
theorem C7_read_line_spec (h : FileHandle) (frs : Nat → FRESULT)
    (hopen : h.is_open = true) (hfrs : ∀ k, frs k = FRESULT.FR_OK) :
    h.read_line frs =
      (Result.ok
        ((h.content.takeWhile (fun c => c ≠ '\n')).filter (fun c => c ≠ '\r')),
       { h with content := (h.content.dropWhile (fun c => c ≠ '\n')).tail },
       List.replicate ((h.content.takeWhile (fun c => c ≠ '\n')).length + 1)
         EngCall.eng_read) := by
  unfold FileHandle.read_line
  rw [hopen]
  simp [read_line_go_ok frs hfrs 0 [] h.content]

/-- Witness for C7: on content `"x\r\ny\n"`, three successive calls yield
`"x"`, then `"y"`, then the empty string (success, not an error) at end of
file. -/
theorem C7_witness :
    FileHandle.read_line ⟨true, [], ['x', '\r', '\n', 'y', '\n'], 1⟩
        (fun _ => FRESULT.FR_OK) =
      (Result.ok ['x'], ⟨true, [], ['y', '\n'], 1⟩,
       List.replicate 3 EngCall.eng_read) ∧
    FileHandle.read_line ⟨true, [], ['y', '\n'], 1⟩ (fun _ => FRESULT.FR_OK) =
      (Result.ok ['y'], ⟨true, [], [], 1⟩,
       List.replicate 2 EngCall.eng_read) ∧
    FileHandle.read_line ⟨true, [], [], 1⟩ (fun _ => FRESULT.FR_OK) =
      (Result.ok [], ⟨true, [], [], 1⟩, List.replicate 1 EngCall.eng_read) :=
  ⟨(C7_read_line_spec ⟨true, [], ['x', '\r', '\n', 'y', '\n'], 1⟩
      (fun _ => FRESULT.FR_OK) rfl (fun _ => rfl)).trans (by decide),
   (C7_read_line_spec ⟨true, [], ['y', '\n'], 1⟩
      (fun _ => FRESULT.FR_OK) rfl (fun _ => rfl)).trans (by decide),
   (C7_read_line_spec ⟨true, [], [], 1⟩
      (fun _ => FRESULT.FR_OK) rfl (fun _ => rfl)).trans (by decide)⟩

/-! ## Claim C8 -/

/-- C8, confirmed: the handle state machine — `close` on a not-open handle
performs no engine call and changes nothing; every operation (`read`,
`read_line`, `write`, `seek`, `tell`, `size`, `flush`) on a not-open handle
returns `PERMISSION_DENIED` without invoking the engine; and for any handle,
a second `close` after a first one is a no-op, the two together performing
at most one engine-level `f_close`. -/
theorem C8_file_handle_state_machine (h : FileHandle) :
    (h.is_open = false →
      h.close = (h, []) ∧
      (∀ n fr, h.read n fr =
        (Result.err ErrorCode.PERMISSION_DENIED "file not open", h, [])) ∧
      (∀ frs, h.read_line frs =
        (Result.err ErrorCode.PERMISSION_DENIED "file not open", h, [])) ∧
      (∀ n fr bw, h.write n fr bw =
        (Result.err ErrorCode.PERMISSION_DENIED "file not open", h, [])) ∧
      (∀ fr nc, h.seek fr nc =
        (ResultV.err ErrorCode.PERMISSION_DENIED "file not open", h, [])) ∧
      (∀ pos, h.tell pos =
        (Result.err ErrorCode.PERMISSION_DENIED "file not open", [])) ∧
      (∀ fsize, h.size fsize =
        (Result.err ErrorCode.PERMISSION_DENIED "file not open", [])) ∧
      (∀ fr, h.flush fr =
        (ResultV.err ErrorCode.PERMISSION_DENIED "file not open", h, []))) ∧
    ((h.close.1).close = (h.close.1, []) ∧
      (h.close.2 ++ (h.close.1).close.2).count EngCall.eng_close ≤ 1) := by
  constructor
  · intro hc
    refine ⟨?_, ?_, ?_, ?_, ?_, ?_, ?_, ?_⟩
    · simp [FileHandle.close, hc]
    · intro n fr; simp [FileHandle.read, hc]
    · intro frs; simp [FileHandle.read_line, hc]
    · intro n fr bw; simp [FileHandle.write, hc]
    · intro fr nc; simp [FileHandle.seek, hc]
    · intro pos; simp [FileHandle.tell, hc]
    · intro fsize; simp [FileHandle.size, hc]
    · intro fr; simp [FileHandle.flush, hc]
  · cases hO : h.is_open with
    | true => simp [FileHandle.close, hO]
    | false => simp [FileHandle.close, hO]

/-- Witness for C8: a closed handle — `close` is a no-op and `read` fails
with `PERMISSION_DENIED` without any engine call. -/
theorem C8_witness :
    FileHandle.close ⟨false, [], [], 0⟩ = (⟨false, [], [], 0⟩, []) ∧
      FileHandle.read ⟨false, [], [], 0⟩ 4 FRESULT.FR_OK =
        (Result.err ErrorCode.PERMISSION_DENIED "file not open",
         ⟨false, [], [], 0⟩, []) :=
  ⟨((C8_file_handle_state_machine ⟨false, [], [], 0⟩).1 rfl).1,
   ((C8_file_handle_state_machine ⟨false, [], [], 0⟩).1 rfl).2.1 4
     FRESULT.FR_OK⟩

/-! ## Claim C9 -/

/-- C9, counterexample: formatting with the unrecognized kind string
`"ext4"` configures the engine's make-filesystem primitive with `FS_FAT32`,
not the most capacious variant `FS_EXFAT`. -/
theorem C9_counterexample :
    (format true ['e', 'x', 't', '4'] FRESULT.FR_OK).2 =
        some ⟨FS_FAT32, 1, 0, 512, 0⟩ ∧
      FS_FAT32 ≠ FS_EXFAT := by
  decide

/-- C9, amended: on a mounted session, `format` with a filesystem-kind
string that is none of the recognized tokens invokes the engine's
make-filesystem primitive configured with the *FAT32* variant (the
hard-coded default, not exFAT), using the fixed single-FAT,
auto-cluster-size, 512-root-entry configuration. -/
theorem C9_format_unrecognized_defaults_fat32 (fs_type : List Char)
    (mkfs_fr : FRESULT) (h1 : fs_type ≠ ['F', 'A', 'T', '3', '2'])
    (h2 : fs_type ≠ ['F', 'A', 'T', '1', '6'])
    (h3 : fs_type ≠ ['e', 'x', 'F', 'A', 'T']) :
    (format true fs_type mkfs_fr).2 = some ⟨FS_FAT32, 1, 0, 512, 0⟩ := by
  by_cases hf : mkfs_fr = FRESULT.FR_OK <;>
    simp [format, h1, h2, h3, hf]

/-- Witness for C9: the concrete unrecognized kind `"ext4"`. -/
theorem C9_witness :
    (['e', 'x', 't', '4'] : List Char) ≠ ['F', 'A', 'T', '3', '2'] ∧
      (format true ['e', 'x', 't', '4'] FRESULT.FR_OK).2 =
        some ⟨FS_FAT32, 1, 0, 512, 0⟩ :=
  ⟨by decide,
   C9_format_unrecognized_defaults_fat32 ['e', 'x', 't', '4'] FRESULT.FR_OK
     (by decide) (by decide) (by decide)⟩

/-! ## Claim C10 -/

/-- C10, confirmed: calling `open` on an already-open handle first performs
the engine-level close of the currently owned file object — the call trace
begins with `f_close`, before any `f_open` — and in every outcome (invalid
mode, failed open, failed append-seek, success) the resulting handle owns an
engine file object exactly when it is open, hence at most one. -/
theorem C10_open_on_open_closes_first (h : FileHandle) (path mode : List Char)
    (ofr sfr : FRESULT) (nc : List Char) (hop : h.is_open = true)
    (hwf : h.owned = 1) :
    (FileHandle.open_file h path mode ofr sfr nc).2.2.head? =
        some EngCall.eng_close ∧
      ((FileHandle.open_file h path mode ofr sfr nc).2.1.owned =
        if (FileHandle.open_file h path mode ofr sfr nc).2.1.is_open then 1
        else 0) ∧
      (FileHandle.open_file h path mode ofr sfr nc).2.1.owned ≤ 1 := by
  cases hm : mode_to_flags mode with
  | none => simp [FileHandle.open_file, FileHandle.close, hop, hwf, hm]
  | some fl =>
    by_cases ho : ofr = FRESULT.FR_OK
    · by_cases ha : (mode = ['a'] ∨ mode = ['a', '+']) ∧ sfr ≠ FRESULT.FR_OK
      · simp [FileHandle.open_file, FileHandle.close, hop, hwf, hm, ho, ha]
      · simp [FileHandle.open_file, FileHandle.close, hop, hwf, hm, ho, ha]
    · simp [FileHandle.open_file, FileHandle.close, hop, hwf, hm, ho]

/-- Witness for C10: re-opening an open handle (mode `"r"`, both engine
calls succeeding) — the trace starts with the engine close and the new
handle owns exactly one engine file object. -/
theorem C10_witness :
    (FileHandle.open_file ⟨true, ['f'], [], 1⟩ ['g'] ['r'] FRESULT.FR_OK
        FRESULT.FR_OK []).2.2.head? = some EngCall.eng_close ∧
      ((FileHandle.open_file ⟨true, ['f'], [], 1⟩ ['g'] ['r'] FRESULT.FR_OK
          FRESULT.FR_OK []).2.1.owned =
        if (FileHandle.open_file ⟨true, ['f'], [], 1⟩ ['g'] ['r'] FRESULT.FR_OK
            FRESULT.FR_OK []).2.1.is_open then 1 else 0) ∧
      (FileHandle.open_file ⟨true, ['f'], [], 1⟩ ['g'] ['r'] FRESULT.FR_OK
        FRESULT.FR_OK []).2.1.owned ≤ 1 :=
  C10_open_on_open_closes_first ⟨true, ['f'], [], 1⟩ ['g'] ['r'] FRESULT.FR_OK
    FRESULT.FR_OK [] rfl rfl

end MicroSD
